import Mathlib

/-!
Verification of the `pd_routing` reconciliation scripts (`all.py`, `new.py`).

Strings are modelled as `List Char`. Python dictionaries are modelled as
association lists with first-match lookup and insert-or-overwrite update.
Remote HTTP pagination is modelled by a script of responses consumed in
order; generators and exceptions are modelled with `Except`.
-/

namespace PdR

/-- Strings of the scripts are modelled as lists of characters. -/
abbrev Str := List Char

/-- Python `needle in haystack` begins from substring matching at a
position: `seqStarts p l` holds when `p` is an initial segment of `l`. -/
def seqStarts : Str → Str → Bool
  | [], _ => true
  | _ :: _, [] => false
  | p :: ps, c :: cs => (p == c) && seqStarts ps cs

/-- Python `needle in haystack`: `needle` occurs as a contiguous
subsequence of `haystack`. -/
def containsSeq (pat : Str) : Str → Bool
  | [] => seqStarts pat []
  | c :: rest => seqStarts pat (c :: rest) || containsSeq pat rest

/-- The literal path marker of the regex `/integration/([^/]+)/?`. -/
def integrationMarker : Str := "/integration/".toList

/-- Semantics of `re.search(r"/integration/([^/]+)/?", s)` followed by
`m.group(1)`: scan left to right for the first position where the literal
`/integration/` is followed by at least one non-slash character; the
captured group is the maximal run of non-slash characters there
(`[^/]+` is greedy, and the trailing `/?` never constrains it). -/
def reSearchIntegration : Str → Option Str
  | [] => none
  | c :: rest =>
    if seqStarts integrationMarker (c :: rest) = true then
      match List.drop integrationMarker.length (c :: rest) with
      | [] => reSearchIntegration rest
      | d :: ds =>
        if d = '/' then reSearchIntegration rest
        else some (List.takeWhile (fun x => !(x == '/')) (d :: ds))
    else reSearchIntegration rest

/-- `all.py` line 144: `extract_key_from_pd(endpoint)`. -/
def extract_key_from_pd (endpoint : Str) : Option Str :=
  reSearchIntegration endpoint

/-- `new.py` line 101: `extract_integration_key_from_url(url)`; guards the
falsy (empty) url first, then applies the same regex search. -/
def extract_integration_key_from_url (url : Str) : Option Str :=
  if url = [] then none else reSearchIntegration url

/-- Python dictionary lookup `m.get(k)` on an association list: the first
binding of the key, if any. -/
def alookup {β : Type} : List (Str × β) → Str → Option β
  | [], _ => none
  | kv :: rest, k => if kv.1 = k then some kv.2 else alookup rest k

/-- Python dictionary assignment `m[k] = v`: overwrite the binding when the
key is present, append a new binding otherwise. -/
def dictInsert {β : Type} (m : List (Str × β)) (k : Str) (v : β) :
    List (Str × β) :=
  if m.any (fun kv => kv.1 = k) then
    m.map (fun kv => if kv.1 = k then (k, v) else kv)
  else m ++ [(k, v)]

/-- One HTTP response of the PagerDuty REST API, as seen by the pagination
loops: either a 429 with an optional `Retry-After` header (in seconds), or a
successful page of items together with the `more` flag. -/
inductive PdResp (α : Type) : Type
  | rate (retryAfter : Option Nat)
  | ok (items : List α) (more : Bool)
deriving DecidableEq, Repr

/-- Whether a response is a successful page (not a 429). -/
def respIsOk {α : Type} : PdResp α → Bool
  | PdResp.rate _ => false
  | PdResp.ok _ _ => true

/-- The page size both scripts use (`limit = 100`). -/
def pdPageLimit : Nat := 100

/-- The offset-pagination loop shared by `fetch_all_pd_teams` and the two
services fetchers: request the current offset; on a 429 retry the same
offset; on a page, process its items, stop if `more` is false, advance the
offset by `limit` otherwise. The remote is modelled as a script of responses
consumed in order; an exhausted script means the loop would issue a request
with no answer, returned as `none`. -/
def paginateAcc {α β : Type} (step : β → List α → β) :
    List (PdResp α) → Nat → β → Option β
  | [], _, _ => none
  | PdResp.rate _ :: rest, off, acc => paginateAcc step rest off acc
  | PdResp.ok items more :: rest, off, acc =>
    if more then paginateAcc step rest (off + pdPageLimit) (step acc items)
    else some (step acc items)

/-- The offset each successive request of the pagination loop is issued
with, one entry per consumed response. -/
def pageOffsets {α : Type} : List (PdResp α) → Nat → List Nat
  | [], _ => []
  | PdResp.rate _ :: rest, off => off :: pageOffsets rest off
  | PdResp.ok _ more :: rest, off =>
    if more then off :: pageOffsets rest (off + pdPageLimit) else [off]

/-- The rate-limit wait performed after each successive response: on a 429,
`time.sleep(int(headers.get("Retry-After", "5")))` seconds; no rate wait
after a successful page. One entry per consumed response. -/
def rateWaits {α : Type} : List (PdResp α) → List (Option Nat)
  | [] => []
  | PdResp.rate r :: rest => some (r.getD 5) :: rateWaits rest
  | PdResp.ok _ more :: rest =>
    if more then none :: rateWaits rest else [none]

/-- A team object of a `/teams` page (`all.py` lines 61-62 read `t["id"]`
and `t["name"]`). -/
structure TeamObj : Type where
  id : Str
  name : Str
deriving DecidableEq, Repr

/-- `all.py` lines 61-62: `teams[t["id"]] = t["name"]` over one page. -/
def teamsStep (m : List (Str × Str)) (page : List TeamObj) :
    List (Str × Str) :=
  page.foldl (fun m t => dictInsert m t.id t.name) m

/-- `all.py` lines 42-71: `fetch_all_pd_teams()`, run against a response
script. -/
def fetch_all_pd_teams (script : List (PdResp TeamObj)) :
    Option (List (Str × Str)) :=
  paginateAcc teamsStep script 0 []

/-- A nested integration object of a service; `integration_key` may be
absent. -/
structure Integ : Type where
  integration_key : Option Str
deriving DecidableEq, Repr

/-- A service object of a `/services` page: id, name, associated team ids
(`s.get("teams", [])`), and the eagerly included integrations
(`s.get("integrations") or []`). -/
structure Service : Type where
  id : Str
  name : Str
  teams : List Str
  integrations : Option (List Integ)
deriving DecidableEq, Repr

/-- The record stored per integration key. -/
structure PdInfo : Type where
  service_id : Str
  service_name : Str
  team_id : Str
  team_name : Str
deriving DecidableEq, Repr

/-- `all.py` lines 100-112: resolve a service to its record; with no
associated team both team fields are `UNKNOWN`, otherwise the first team id
is used and its name looked up in the team mapping with `UNKNOWN` as
default. -/
def serviceRecord (teams_map : List (Str × Str)) (s : Service) : PdInfo :=
  match s.teams with
  | [] =>
    ⟨s.id, s.name, ("UNKNOWN").toList, ("UNKNOWN").toList⟩
  | team_id :: _ =>
    ⟨s.id, s.name, team_id, (alookup teams_map team_id).getD (("UNKNOWN").toList)⟩

/-- `all.py` lines 100-124: process one page of services into the lookup;
each present, non-empty integration key is inserted (overwriting). -/
def svcStep (teams_map : List (Str × Str)) (m : List (Str × PdInfo))
    (page : List Service) : List (Str × PdInfo) :=
  page.foldl (fun m s =>
    (s.integrations.getD []).foldl (fun m integ =>
      match integ.integration_key with
      | none => m
      | some key =>
        if key = [] then m else dictInsert m key (serviceRecord teams_map s)) m) m

/-- `all.py` lines 74-133: `fetch_all_pd_services_with_integrations()`; it
first fetches all teams, then pages through all services. -/
def fetch_all_pd_services_with_integrations
    (teamScript : List (PdResp TeamObj)) (svcScript : List (PdResp Service)) :
    Option (List (Str × PdInfo)) :=
  match fetch_all_pd_teams teamScript with
  | none => none
  | some teams_map => paginateAcc (svcStep teams_map) svcScript 0 []

/-- `new.py` lines 76-84: process one page of services into the per-team
lookup mapping an integration key to the service id and name pair. -/
def svcStepNew (m : List (Str × (Str × Str))) (page : List Service) :
    List (Str × (Str × Str)) :=
  page.foldl (fun m s =>
    (s.integrations.getD []).foldl (fun m integ =>
      match integ.integration_key with
      | none => m
      | some key =>
        if key = [] then m else dictInsert m key (s.id, s.name)) m) m

/-- `new.py` lines 49-93: `fetch_pagerduty_services_for_team(team_id)`, run
against a response script. -/
def fetch_pagerduty_services_for_team (svcScript : List (PdResp Service)) :
    Option (List (Str × (Str × Str))) :=
  paginateAcc svcStepNew svcScript 0 []

/-- An SNS subscription as read by both scripts; only the endpoint is
consulted (`sub.get("Endpoint", "")` in `all.py`,
`sub.get("Endpoint") or ""` in `new.py`). -/
structure Subscription : Type where
  endpoint : Option Str
deriving DecidableEq, Repr

/-- A CloudWatch metric alarm as read by both scripts: `AlarmName`,
`ActionsEnabled` and `AlarmActions` may each be absent from the record. -/
structure Alarm : Type where
  alarmName : Option Str
  actionsEnabled : Option Bool
  alarmActions : Option (List Str)
deriving DecidableEq, Repr

/-- One output row of `all.py` (the dict literal of its `main`), fields in
the order of the source. -/
structure Row : Type where
  region : Str
  alarmName : Str
  alarmActionStatus : Str
  snsTopicArn : Str
  snsTopicName : Str
  integrationKey : Str
  pdServiceName : Str
  pdServiceId : Str
  pdTeamName : Str
  pdTeamId : Str
deriving DecidableEq, Repr

/-- One output row of `new.py` (no team columns). -/
structure NewRow : Type where
  region : Str
  alarmName : Str
  alarmActionStatus : Str
  snsTopicArn : Str
  snsTopicName : Str
  integrationKey : Str
  pdServiceName : Str
  pdServiceId : Str
deriving DecidableEq, Repr

/-- The PagerDuty domain marker both scripts test with
`"pagerduty" not in endpoint`. -/
def pdDomainMarker : Str := "pagerduty".toList

/-- The SNS topic ARN shape both scripts test with
`arn.startswith("arn:aws:sns:")`. -/
def snsArnMarker : Str := "arn:aws:sns:".toList

/-- `sns_arn.rsplit(":", 1)[-1]`: the characters after the last colon, the
whole string when there is none (`all.py` line 204). -/
def afterLastColon (s : Str) : Str :=
  (s.reverse.takeWhile (fun c => !(c == ':'))).reverse

/-- `new.py` line 191: `sns_arn.split(":")[-1] if ":" in sns_arn else
sns_arn`. -/
def snsNameOfArnNew (sns_arn : Str) : Str :=
  if containsSeq ((":").toList) sns_arn = true then afterLastColon sns_arn
  else sns_arn

/-- The default record `pd_lookup.get(key, {...})` of `all.py` lines
220-225. -/
def notFoundInfo : PdInfo :=
  ⟨("NOT_FOUND").toList, ("NOT_FOUND").toList,
   ("UNKNOWN").toList, ("UNKNOWN").toList⟩

/-- The row `all.py` appends for one subscription whose endpoint contains
the PagerDuty marker and yields a key, or `none` when the subscription is
skipped (`all.py` lines 210-238). -/
def subRow (pd_lookup : List (Str × PdInfo))
    (region alarm_name action_status sns_arn sns_name : Str)
    (sub : Subscription) : Option Row :=
  let endpoint := sub.endpoint.getD []
  if containsSeq pdDomainMarker endpoint = false then none
  else
    match extract_key_from_pd endpoint with
    | none => none
    | some key =>
      let pd_info := (alookup pd_lookup key).getD notFoundInfo
      some ⟨region, alarm_name, action_status, sns_arn, sns_name, key,
        pd_info.service_name, pd_info.service_id,
        pd_info.team_name, pd_info.team_id⟩

/-- The subscription loop of `all.py` lines 207-238: iterate the
subscriptions carrying the `pd_found` flag, appending one row per
subscription whose endpoint contains the marker and yields a key; the flag
flips to true exactly at such subscriptions. Returns the appended rows and
the final flag. -/
def processSubsLoop (pd_lookup : List (Str × PdInfo))
    (region alarm_name action_status sns_arn sns_name : Str) :
    List Subscription → Bool → List Row × Bool
  | [], pd_found => ([], pd_found)
  | sub :: rest, pd_found =>
    let endpoint := sub.endpoint.getD []
    if containsSeq pdDomainMarker endpoint = false then
      processSubsLoop pd_lookup region alarm_name action_status sns_arn
        sns_name rest pd_found
    else
      match extract_key_from_pd endpoint with
      | none =>
        processSubsLoop pd_lookup region alarm_name action_status sns_arn
          sns_name rest pd_found
      | some key =>
        let pd_info := (alookup pd_lookup key).getD notFoundInfo
        let next := processSubsLoop pd_lookup region alarm_name action_status
          sns_arn sns_name rest true
        (⟨region, alarm_name, action_status, sns_arn, sns_name, key,
            pd_info.service_name, pd_info.service_id,
            pd_info.team_name, pd_info.team_id⟩ :: next.1, next.2)

/-- Processing of one SNS target of `all.py` lines 199-252: run the
subscription loop with `pd_found = False`; when the flag never flipped,
append the degenerate row with empty key, service and team fields. -/
def processTarget (pd_lookup : List (Str × PdInfo))
    (region alarm_name action_status sns_arn : Str)
    (subs : List Subscription) : List Row :=
  let sns_name := afterLastColon sns_arn
  let r := processSubsLoop pd_lookup region alarm_name action_status sns_arn
    sns_name subs false
  if r.2 then r.1
  else r.1 ++ [⟨region, alarm_name, action_status, sns_arn, sns_name,
    [], [], [], [], []⟩]

/-- Processing of one alarm of `all.py` lines 179-252: an empty (or absent)
action list yields the single `NO_ACTION` row; otherwise the status is
`ENABLED`/`DISABLED` per `alarm.get("ActionsEnabled", False)` and each
action that is an SNS topic ARN is resolved through its subscriptions,
other actions being skipped without a row. `subsOf` models
`sns_subscriptions(arn, region)`. -/
def processAlarm (pd_lookup : List (Str × PdInfo))
    (subsOf : Str → List Subscription) (region : Str) (alarm : Alarm) :
    List Row :=
  let alarm_name := alarm.alarmName.getD (("<no-name>").toList)
  let actions := alarm.alarmActions.getD []
  if actions = [] then
    [⟨region, alarm_name, ("NO_ACTION").toList, [], [], [], [], [], [], []⟩]
  else
    let action_status :=
      if alarm.actionsEnabled.getD false then ("ENABLED").toList
      else ("DISABLED").toList
    actions.foldr (fun arn acc =>
      (if seqStarts snsArnMarker arn = true then
        processTarget pd_lookup region alarm_name action_status arn
          (subsOf arn)
      else []) ++ acc) []

/-- `all.py` lines 148-153: `cw_alarms(region)` has no exception handling;
a failing `describe_alarms` call propagates out of the generator. -/
def cw_alarms (alarmsFn : Str → Except Unit (List Alarm)) (region : Str) :
    Except Unit (List Alarm) :=
  alarmsFn region

/-- The region loop of `all.py` `main` (lines 176-252): alarms of each
region are processed in order; an uncaught region failure aborts the whole
run before any output is written. -/
def mainAll (pd_lookup : List (Str × PdInfo))
    (alarmsFn : Str → Except Unit (List Alarm))
    (subsFn : Str → Str → List Subscription) :
    List Str → Except Unit (List Row)
  | [] => Except.ok []
  | region :: rest =>
    match cw_alarms alarmsFn region with
    | Except.error e => Except.error e
    | Except.ok alarms =>
      match mainAll pd_lookup alarmsFn subsFn rest with
      | Except.error e => Except.error e
      | Except.ok laterRows =>
        Except.ok
          (((alarms.map (processAlarm pd_lookup
            (fun arn => subsFn arn region) region)).flatten) ++ laterRows)

/-- `new.py` lines 143-150: `safe_len_alarm_actions(alarm)`. -/
def safe_len_alarm_actions (alarm : Alarm) : Nat :=
  match alarm.alarmActions with
  | none => 0
  | some actions => if actions = [] then 0 else actions.length

/-- The subscription loop of `new.py` lines 195-214, over the per-team
lookup whose values are service id and name pairs, with the default
`("NOT_FOUND", "NOT_FOUND")`. -/
def processSubsLoopNew (pd_lookup : List (Str × (Str × Str)))
    (region alarm_name action_status sns_arn sns_name : Str) :
    List Subscription → Bool → List NewRow × Bool
  | [], found_pd => ([], found_pd)
  | sub :: rest, found_pd =>
    let endpoint := sub.endpoint.getD []
    if containsSeq pdDomainMarker endpoint = false then
      processSubsLoopNew pd_lookup region alarm_name action_status sns_arn
        sns_name rest found_pd
    else
      match extract_integration_key_from_url endpoint with
      | none =>
        processSubsLoopNew pd_lookup region alarm_name action_status sns_arn
          sns_name rest found_pd
      | some key =>
        let info := (alookup pd_lookup key).getD
          (("NOT_FOUND").toList, ("NOT_FOUND").toList)
        let next := processSubsLoopNew pd_lookup region alarm_name
          action_status sns_arn sns_name rest true
        (⟨region, alarm_name, action_status, sns_arn, sns_name, key,
            info.2, info.1⟩ :: next.1, next.2)

/-- Processing of one SNS target of `new.py` lines 190-226. -/
def processTargetNew (pd_lookup : List (Str × (Str × Str)))
    (region alarm_name action_status sns_arn : Str)
    (subs : List Subscription) : List NewRow :=
  let sns_name := snsNameOfArnNew sns_arn
  let r := processSubsLoopNew pd_lookup region alarm_name action_status
    sns_arn sns_name subs false
  if r.2 then r.1
  else r.1 ++ [⟨region, alarm_name, action_status, sns_arn, sns_name,
    [], [], []⟩]

/-- Processing of one alarm of `new.py` lines 162-226. -/
def processAlarmNew (pd_lookup : List (Str × (Str × Str)))
    (subsOf : Str → List Subscription) (region : Str) (alarm : Alarm) :
    List NewRow :=
  let alarm_name := alarm.alarmName.getD (("<no-name>").toList)
  if safe_len_alarm_actions alarm = 0 then
    [⟨region, alarm_name, ("NO_ACTION").toList, [], [], [], [], []⟩]
  else
    let action_status :=
      if alarm.actionsEnabled.getD false then ("ENABLED").toList
      else ("DISABLED").toList
    (alarm.alarmActions.getD []).foldr (fun arn acc =>
      (if seqStarts snsArnMarker arn = true then
        processTargetNew pd_lookup region alarm_name action_status arn
          (subsOf arn)
      else []) ++ acc) []

/-- `new.py` lines 129-141: `describe_alarms_paginated(region)` catches
`ClientError`, logs a warning and returns, so a failing region degrades to
zero alarms. -/
def describe_alarms_paginated (alarmsFn : Str → Except Unit (List Alarm))
    (region : Str) : List Alarm :=
  match alarmsFn region with
  | Except.error _ => []
  | Except.ok alarms => alarms

/-- The rows `new.py` `main` produces for one region. -/
def regionRowsNew (pd_lookup : List (Str × (Str × Str)))
    (alarmsFn : Str → Except Unit (List Alarm))
    (subsFn : Str → Str → List Subscription) (region : Str) : List NewRow :=
  ((describe_alarms_paginated alarmsFn region).map
    (processAlarmNew pd_lookup (fun arn => subsFn arn region) region)).flatten

/-- The region loop of `new.py` `main` (lines 159-227): the run always
completes and concatenates each region's rows. -/
def mainNew (pd_lookup : List (Str × (Str × Str)))
    (alarmsFn : Str → Except Unit (List Alarm))
    (subsFn : Str → Str → List Subscription) (regions : List Str) :
    List NewRow :=
  (regions.map (regionRowsNew pd_lookup alarmsFn subsFn)).flatten

/-- The row `new.py` appends for one subscription, or `none` when the
subscription is skipped (`new.py` lines 196-214). -/
def subRowNew (pd_lookup : List (Str × (Str × Str)))
    (region alarm_name action_status sns_arn sns_name : Str)
    (sub : Subscription) : Option NewRow :=
  let endpoint := sub.endpoint.getD []
  if containsSeq pdDomainMarker endpoint = false then none
  else
    match extract_integration_key_from_url endpoint with
    | none => none
    | some key =>
      let info := (alookup pd_lookup key).getD
        (("NOT_FOUND").toList, ("NOT_FOUND").toList)
      some ⟨region, alarm_name, action_status, sns_arn, sns_name, key,
        info.2, info.1⟩

theorem seqStarts_iff (p l : Str) :
    seqStarts p l = true ↔ ∃ t, l = p ++ t := by
  induction p generalizing l with
  | nil => simp [seqStarts]
  | cons x ps ih =>
    cases l with
    | nil => simp [seqStarts]
    | cons c cs =>
      simp only [seqStarts, Bool.and_eq_true, beq_iff_eq, ih]
      constructor
      · rintro ⟨rfl, t, rfl⟩
        exact ⟨t, rfl⟩
      · rintro ⟨t, h⟩
        cases h
        exact ⟨rfl, t, rfl⟩

theorem containsSeq_iff (pat l : Str) :
    containsSeq pat l = true ↔ ∃ p t, l = p ++ pat ++ t := by
  induction l with
  | nil =>
    simp only [containsSeq, seqStarts_iff]
    constructor
    · rintro ⟨t, h⟩
      exact ⟨[], t, h⟩
    · rintro ⟨p, t, h⟩
      cases p with
      | nil => exact ⟨t, h⟩
      | cons a as => simp at h
  | cons c cs ih =>
    simp only [containsSeq, Bool.or_eq_true, seqStarts_iff, ih]
    constructor
    · rintro (⟨t, h⟩ | ⟨p, t, h⟩)
      · exact ⟨[], t, h⟩
      · exact ⟨c :: p, t, by simp [h]⟩
    · rintro ⟨p, t, h⟩
      cases p with
      | nil => exact Or.inl ⟨t, h⟩
      | cons a as =>
        right
        simp only [List.cons_append, List.cons.injEq] at h
        exact ⟨as, t, h.2⟩

theorem dropWhile_slash_shape (l : Str) :
    l.dropWhile (fun x => !(x == '/')) = [] ∨
      ∃ q2, l.dropWhile (fun x => !(x == '/')) = '/' :: q2 := by
  induction l with
  | nil => exact Or.inl rfl
  | cons c cs ih =>
    by_cases hc : c = '/'
    · subst hc
      exact Or.inr ⟨cs, by rw [List.dropWhile_cons]; simp⟩
    · rw [List.dropWhile_cons]
      simpa [hc] using ih

theorem reSearch_sound (s t : Str) (h : reSearchIntegration s = some t) :
    ∃ p q, s = p ++ integrationMarker ++ t ++ q ∧ t ≠ [] ∧
      (∀ c ∈ t, c ≠ '/') ∧ (q = [] ∨ ∃ q2, q = '/' :: q2) := by
  induction s with
  | nil => simp [reSearchIntegration] at h
  | cons c rest ih =>
    rw [reSearchIntegration] at h
    by_cases hs : seqStarts integrationMarker (c :: rest) = true
    · simp only [hs, if_true] at h
      rcases (seqStarts_iff _ _).1 hs with ⟨t0, ht0⟩
      rw [ht0, List.drop_left] at h
      cases t0 with
      | nil =>
        rcases ih h with ⟨p, q, hp, hne, hnoslash, hq⟩
        exact ⟨c :: p, q, by simp [hp, List.cons_append], hne, hnoslash, hq⟩
      | cons d ds =>
        by_cases hd : d = '/'
        · simp only [hd, if_true] at h
          rcases ih h with ⟨p, q, hp, hne, hnoslash, hq⟩
          exact ⟨c :: p, q, by simp [hp, List.cons_append], hne, hnoslash, hq⟩
        · simp only [hd, if_false] at h
          rcases Option.some.injEq _ _ ▸ h with rfl
          refine ⟨[], (d :: ds).dropWhile (fun x => !(x == '/')), ?_, ?_, ?_, ?_⟩
          · rw [ht0]
            simp only [List.nil_append, List.append_assoc,
              List.takeWhile_append_dropWhile]
          · rw [List.takeWhile_cons]
            simp [hd]
          · intro x hx
            have := List.mem_takeWhile_imp hx
            simpa using this
          · exact dropWhile_slash_shape _
    · simp only [hs, if_false] at h
      rcases ih h with ⟨p, q, hp, hne, hnoslash, hq⟩
      exact ⟨c :: p, q, by simp [hp, List.cons_append], hne, hnoslash, hq⟩

theorem reSearch_complete (p t q : Str) (hne : t ≠ [])
    (hns : ∀ c ∈ t, c ≠ '/') :
    (reSearchIntegration (p ++ integrationMarker ++ t ++ q)).isSome = true := by
  induction p with
  | nil =>
    cases t with
    | nil => exact absurd rfl hne
    | cons d ds =>
      have hd : d ≠ '/' := hns d (by simp)
      rw [show ([] ++ integrationMarker ++ (d :: ds) ++ q) =
            integrationMarker ++ ((d :: ds) ++ q) by simp [List.append_assoc]]
      rw [show integrationMarker ++ ((d :: ds) ++ q) =
            '/' :: (List.tail integrationMarker ++ ((d :: ds) ++ q)) from rfl]
      rw [reSearchIntegration]
      rw [show ('/' :: (List.tail integrationMarker ++ ((d :: ds) ++ q))) =
            integrationMarker ++ ((d :: ds) ++ q) from rfl]
      have hstart : seqStarts integrationMarker
          (integrationMarker ++ ((d :: ds) ++ q)) = true := by
        apply (seqStarts_iff _ _).2
        exact ⟨(d :: ds) ++ q, rfl⟩
      simp only [hstart, if_true, List.drop_left]
      simp only [List.cons_append, hd, if_false]
      rfl
  | cons x p2 ih =>
    rw [show ((x :: p2) ++ integrationMarker ++ t ++ q) =
          x :: (p2 ++ integrationMarker ++ t ++ q) by simp [List.cons_append]]
    rw [reSearchIntegration]
    by_cases hs : seqStarts integrationMarker
        (x :: (p2 ++ integrationMarker ++ t ++ q)) = true
    · simp only [hs, if_true]
      rcases hdrop : List.drop integrationMarker.length
          (x :: (p2 ++ integrationMarker ++ t ++ q)) with _ | ⟨d, ds⟩
      · exact ih
      · by_cases hd : d = '/'
        · simp only [hd, if_true]
          exact ih
        · simp only [hd, if_false]
          rfl
    · simp only [hs, if_false]
      exact ih

/-- Claim C2: the integration-key resolver of both scripts is a pure function
that returns the token of one or more non-slash characters following the
literal path segment `/integration/` (the token ending at the next slash or
the end of the string), returns nothing when the endpoint contains no such
occurrence, is case-sensitive, maps the sample events URL to `ABC123`, and
maps a non-matching URL to nothing. -/
theorem claim_C2 :
    (∀ s t, extract_key_from_pd s = some t →
      ∃ p q, s = p ++ integrationMarker ++ t ++ q ∧ t ≠ [] ∧
        (∀ c ∈ t, c ≠ '/') ∧ (q = [] ∨ ∃ q2, q = '/' :: q2))
    ∧ (∀ p t q, t ≠ [] → (∀ c ∈ t, c ≠ '/') →
        (extract_key_from_pd (p ++ integrationMarker ++ t ++ q)).isSome = true)
    ∧ (∀ s, extract_integration_key_from_url s = extract_key_from_pd s)
    ∧ extract_key_from_pd
        (("https://events.example.com/integration/ABC123/enqueue").toList) =
        some (("ABC123").toList)
    ∧ extract_key_from_pd (("https://example.com/other/path").toList) = none
    ∧ extract_key_from_pd
        (("https://events.example.com/INTEGRATION/ABC123/enqueue").toList) =
        none := by
  refine ⟨reSearch_sound, reSearch_complete, ?_, by decide, by decide, by decide⟩
  intro s
  cases s with
  | nil => rfl
  | cons c cs => rfl

/-- Concrete instance of claim C2: both the soundness and the completeness
part apply to the sample events URL. -/
theorem claim_C2_witness :
    (∃ p q, (("https://events.example.com/integration/ABC123/enqueue").toList)
        = p ++ integrationMarker ++ (("ABC123").toList) ++ q ∧
        (("ABC123").toList) ≠ [] ∧
        (∀ c ∈ (("ABC123").toList), c ≠ '/') ∧
        (q = [] ∨ ∃ q2, q = '/' :: q2))
    ∧ (extract_key_from_pd ((("https://events.example.com").toList) ++
        integrationMarker ++ (("ABC123").toList) ++
        (("/enqueue").toList))).isSome = true :=
  ⟨claim_C2.1 _ _ (by decide), claim_C2.2.1 _ _ _ (by decide) (by decide)⟩

theorem mem_foldr_append {γ δ : Type} (f : δ → List γ) (acc : List γ)
    (l : List δ) (x : γ) :
    x ∈ l.foldr (fun a r => f a ++ r) acc ↔ (∃ a ∈ l, x ∈ f a) ∨ x ∈ acc := by
  induction l with
  | nil => simp
  | cons a as ih =>
    simp only [List.foldr_cons, List.mem_append, ih, List.mem_cons]
    constructor
    · rintro (hx | (⟨b, hb, hx⟩ | hx))
      · exact Or.inl ⟨a, Or.inl rfl, hx⟩
      · exact Or.inl ⟨b, Or.inr hb, hx⟩
      · exact Or.inr hx
    · rintro (⟨b, (rfl | hb), hx⟩ | hx)
      · exact Or.inl hx
      · exact Or.inr (Or.inl ⟨b, hb, hx⟩)
      · exact Or.inr (Or.inr hx)

theorem foldr_append_eq_nil {γ δ : Type} (f : δ → List γ) (l : List δ) :
    l.foldr (fun a r => f a ++ r) [] = [] ↔ ∀ a ∈ l, f a = [] := by
  induction l with
  | nil => simp
  | cons a as ih => simp [List.append_eq_nil, ih]

theorem processSubsLoop_fst (pd_lookup : List (Str × PdInfo))
    (region alarm_name action_status sns_arn sns_name : Str)
    (subs : List Subscription) (b : Bool) :
    (processSubsLoop pd_lookup region alarm_name action_status sns_arn
      sns_name subs b).1 =
      subs.filterMap
        (subRow pd_lookup region alarm_name action_status sns_arn sns_name) := by
  induction subs generalizing b with
  | nil => simp [processSubsLoop]
  | cons sub rest ih =>
    rw [processSubsLoop, List.filterMap_cons]
    by_cases hc : containsSeq pdDomainMarker (sub.endpoint.getD []) = false
    · simp only [hc, if_true, subRow, ih]
    · simp only [hc, if_false]
      rcases hk : extract_key_from_pd (sub.endpoint.getD []) with _ | key
      · simp [subRow, hc, hk, ih]
      · simp [subRow, hc, hk, ih]

theorem processSubsLoop_snd (pd_lookup : List (Str × PdInfo))
    (region alarm_name action_status sns_arn sns_name : Str)
    (subs : List Subscription) (b : Bool) :
    (processSubsLoop pd_lookup region alarm_name action_status sns_arn
      sns_name subs b).2 =
      (b || subs.any (fun sub =>
        containsSeq pdDomainMarker (sub.endpoint.getD []) &&
          (extract_key_from_pd (sub.endpoint.getD [])).isSome)) := by
  induction subs generalizing b with
  | nil => simp [processSubsLoop]
  | cons sub rest ih =>
    rw [processSubsLoop, List.any_cons]
    by_cases hc : containsSeq pdDomainMarker (sub.endpoint.getD []) = false
    · simp only [hc, if_true, ih, Bool.false_and, Bool.false_or]
    · simp only [Bool.not_eq_false] at hc
      rcases hk : extract_key_from_pd (sub.endpoint.getD []) with _ | key
      · simp [hc, hk, ih]
      · simp [hc, hk, ih]

theorem subRow_isSome (pd_lookup : List (Str × PdInfo))
    (region alarm_name action_status sns_arn sns_name : Str)
    (sub : Subscription) :
    (subRow pd_lookup region alarm_name action_status sns_arn sns_name
      sub).isSome =
      (containsSeq pdDomainMarker (sub.endpoint.getD []) &&
        (extract_key_from_pd (sub.endpoint.getD [])).isSome) := by
  rw [subRow]
  by_cases hc : containsSeq pdDomainMarker (sub.endpoint.getD []) = false
  · simp [hc]
  · simp only [Bool.not_eq_false] at hc
    rcases hk : extract_key_from_pd (sub.endpoint.getD []) with _ | key
    · simp [hc, hk]
    · simp [hc, hk]

theorem subRow_status (pd_lookup : List (Str × PdInfo))
    (region alarm_name action_status sns_arn sns_name : Str)
    (sub : Subscription) (row : Row)
    (h : subRow pd_lookup region alarm_name action_status sns_arn sns_name
      sub = some row) :
    row.alarmActionStatus = action_status := by
  rw [subRow] at h
  by_cases hc : containsSeq pdDomainMarker (sub.endpoint.getD []) = false
  · simp [hc] at h
  · simp only [hc, if_false] at h
    rcases hk : extract_key_from_pd (sub.endpoint.getD []) with _ | key
    · simp [hk] at h
    · simp only [hk, Option.some.injEq] at h
      cases h
      rfl

theorem mem_processTarget_status (pd_lookup : List (Str × PdInfo))
    (region alarm_name action_status sns_arn : Str)
    (subs : List Subscription) (row : Row)
    (h : row ∈ processTarget pd_lookup region alarm_name action_status
      sns_arn subs) :
    row.alarmActionStatus = action_status := by
  rw [processTarget] at h
  by_cases hf : (processSubsLoop pd_lookup region alarm_name action_status
      sns_arn (afterLastColon sns_arn) subs false).2 = true
  · rw [if_pos hf, processSubsLoop_fst, List.mem_filterMap] at h
    rcases h with ⟨sub, _, hrow⟩
    exact subRow_status _ _ _ _ _ _ _ _ hrow
  · rw [if_neg hf, List.mem_append, processSubsLoop_fst,
      List.mem_filterMap] at h
    rcases h with ⟨sub, _, hrow⟩ | h
    · exact subRow_status _ _ _ _ _ _ _ _ hrow
    · simp only [List.mem_singleton] at h
      cases h
      rfl

theorem processTarget_ne_nil (pd_lookup : List (Str × PdInfo))
    (region alarm_name action_status sns_arn : Str)
    (subs : List Subscription) :
    processTarget pd_lookup region alarm_name action_status sns_arn
      subs ≠ [] := by
  rw [processTarget]
  by_cases hf : (processSubsLoop pd_lookup region alarm_name action_status
      sns_arn (afterLastColon sns_arn) subs false).2 = true
  · rw [if_pos hf]
    rw [processSubsLoop_snd, Bool.false_or, List.any_eq_true] at hf
    rcases hf with ⟨sub, hsub, hpred⟩
    rw [processSubsLoop_fst]
    intro hnil
    rw [List.filterMap_eq_nil_iff] at hnil
    have := hnil sub hsub
    rw [← subRow_isSome pd_lookup region alarm_name action_status sns_arn
      (afterLastColon sns_arn) sub] at hpred
    rw [this] at hpred
    simp at hpred
  · rw [if_neg hf]
    simp

theorem processSubsLoopNew_fst (pd_lookup : List (Str × (Str × Str)))
    (region alarm_name action_status sns_arn sns_name : Str)
    (subs : List Subscription) (b : Bool) :
    (processSubsLoopNew pd_lookup region alarm_name action_status sns_arn
      sns_name subs b).1 =
      subs.filterMap
        (subRowNew pd_lookup region alarm_name action_status sns_arn
          sns_name) := by
  induction subs generalizing b with
  | nil => simp [processSubsLoopNew]
  | cons sub rest ih =>
    rw [processSubsLoopNew, List.filterMap_cons]
    by_cases hc : containsSeq pdDomainMarker (sub.endpoint.getD []) = false
    · simp only [hc, if_true, subRowNew, ih]
    · simp only [hc, if_false]
      rcases hk : extract_integration_key_from_url (sub.endpoint.getD [])
        with _ | key
      · simp [subRowNew, hc, hk, ih]
      · simp [subRowNew, hc, hk, ih]

theorem processSubsLoopNew_snd (pd_lookup : List (Str × (Str × Str)))
    (region alarm_name action_status sns_arn sns_name : Str)
    (subs : List Subscription) (b : Bool) :
    (processSubsLoopNew pd_lookup region alarm_name action_status sns_arn
      sns_name subs b).2 =
      (b || subs.any (fun sub =>
        containsSeq pdDomainMarker (sub.endpoint.getD []) &&
          (extract_integration_key_from_url (sub.endpoint.getD [])).isSome)) := by
  induction subs generalizing b with
  | nil => simp [processSubsLoopNew]
  | cons sub rest ih =>
    rw [processSubsLoopNew, List.any_cons]
    by_cases hc : containsSeq pdDomainMarker (sub.endpoint.getD []) = false
    · simp only [hc, if_true, ih, Bool.false_and, Bool.false_or]
    · simp only [Bool.not_eq_false] at hc
      rcases hk : extract_integration_key_from_url (sub.endpoint.getD [])
        with _ | key
      · simp [hc, hk, ih]
      · simp [hc, hk, ih]

theorem subRowNew_isSome (pd_lookup : List (Str × (Str × Str)))
    (region alarm_name action_status sns_arn sns_name : Str)
    (sub : Subscription) :
    (subRowNew pd_lookup region alarm_name action_status sns_arn sns_name
      sub).isSome =
      (containsSeq pdDomainMarker (sub.endpoint.getD []) &&
        (extract_integration_key_from_url (sub.endpoint.getD [])).isSome) := by
  rw [subRowNew]
  by_cases hc : containsSeq pdDomainMarker (sub.endpoint.getD []) = false
  · simp [hc]
  · simp only [Bool.not_eq_false] at hc
    rcases hk : extract_integration_key_from_url (sub.endpoint.getD [])
      with _ | key
    · simp [hc, hk]
    · simp [hc, hk]

theorem subRowNew_status (pd_lookup : List (Str × (Str × Str)))
    (region alarm_name action_status sns_arn sns_name : Str)
    (sub : Subscription) (row : NewRow)
    (h : subRowNew pd_lookup region alarm_name action_status sns_arn
      sns_name sub = some row) :
    row.alarmActionStatus = action_status := by
  rw [subRowNew] at h
  by_cases hc : containsSeq pdDomainMarker (sub.endpoint.getD []) = false
  · simp [hc] at h
  · simp only [hc, if_false] at h
    rcases hk : extract_integration_key_from_url (sub.endpoint.getD [])
      with _ | key
    · simp [hk] at h
    · simp only [hk, Option.some.injEq] at h
      cases h
      rfl

theorem mem_processTargetNew_status (pd_lookup : List (Str × (Str × Str)))
    (region alarm_name action_status sns_arn : Str)
    (subs : List Subscription) (row : NewRow)
    (h : row ∈ processTargetNew pd_lookup region alarm_name action_status
      sns_arn subs) :
    row.alarmActionStatus = action_status := by
  rw [processTargetNew] at h
  by_cases hf : (processSubsLoopNew pd_lookup region alarm_name action_status
      sns_arn (snsNameOfArnNew sns_arn) subs false).2 = true
  · rw [if_pos hf, processSubsLoopNew_fst, List.mem_filterMap] at h
    rcases h with ⟨sub, _, hrow⟩
    exact subRowNew_status _ _ _ _ _ _ _ _ hrow
  · rw [if_neg hf, List.mem_append, processSubsLoopNew_fst,
      List.mem_filterMap] at h
    rcases h with ⟨sub, _, hrow⟩ | h
    · exact subRowNew_status _ _ _ _ _ _ _ _ hrow
    · simp only [List.mem_singleton] at h
      cases h
      rfl

theorem processTargetNew_ne_nil (pd_lookup : List (Str × (Str × Str)))
    (region alarm_name action_status sns_arn : Str)
    (subs : List Subscription) :
    processTargetNew pd_lookup region alarm_name action_status sns_arn
      subs ≠ [] := by
  rw [processTargetNew]
  by_cases hf : (processSubsLoopNew pd_lookup region alarm_name action_status
      sns_arn (snsNameOfArnNew sns_arn) subs false).2 = true
  · rw [if_pos hf]
    rw [processSubsLoopNew_snd, Bool.false_or, List.any_eq_true] at hf
    rcases hf with ⟨sub, hsub, hpred⟩
    rw [processSubsLoopNew_fst]
    intro hnil
    rw [List.filterMap_eq_nil_iff] at hnil
    have := hnil sub hsub
    rw [← subRowNew_isSome pd_lookup region alarm_name action_status sns_arn
      (snsNameOfArnNew sns_arn) sub] at hpred
    rw [this] at hpred
    simp at hpred
  · rw [if_neg hf]
    simp


theorem subRow_none (pd_lookup : List (Str × PdInfo))
    (region alarm_name action_status sns_arn sns_name : Str)
    (sub : Subscription)
    (h : containsSeq pdDomainMarker (sub.endpoint.getD []) = false ∨
      extract_key_from_pd (sub.endpoint.getD []) = none) :
    subRow pd_lookup region alarm_name action_status sns_arn sns_name
      sub = none := by
  rcases h with h | h
  · simp [subRow, h]
  · rw [subRow]
    by_cases hc : containsSeq pdDomainMarker (sub.endpoint.getD []) = false
    · simp [hc]
    · simp [hc, h]

theorem subRowNew_none (pd_lookup : List (Str × (Str × Str)))
    (region alarm_name action_status sns_arn sns_name : Str)
    (sub : Subscription)
    (h : containsSeq pdDomainMarker (sub.endpoint.getD []) = false ∨
      extract_integration_key_from_url (sub.endpoint.getD []) = none) :
    subRowNew pd_lookup region alarm_name action_status sns_arn sns_name
      sub = none := by
  rcases h with h | h
  · simp [subRowNew, h]
  · rw [subRowNew]
    by_cases hc : containsSeq pdDomainMarker (sub.endpoint.getD []) = false
    · simp [hc]
    · simp [hc, h]

theorem processAlarm_status (pd_lookup : List (Str × PdInfo))
    (subsOf : Str → List Subscription) (region : Str) (alarm : Alarm)
    (h1 : ¬ alarm.alarmActions.getD [] = []) :
    ∀ row ∈ processAlarm pd_lookup subsOf region alarm,
      row.alarmActionStatus =
        (if alarm.actionsEnabled.getD false then ("ENABLED").toList
         else ("DISABLED").toList) := by
  intro row hrow
  rw [processAlarm] at hrow
  simp only [h1, if_false] at hrow
  rw [mem_foldr_append] at hrow
  rcases hrow with ⟨arn, _, hx⟩ | hx
  · by_cases hs : seqStarts snsArnMarker arn = true
    · rw [if_pos hs] at hx
      exact mem_processTarget_status _ _ _ _ _ _ _ hx
    · rw [if_neg hs] at hx
      simp at hx
  · simp at hx

theorem processAlarmNew_status (pd_lookup : List (Str × (Str × Str)))
    (subsOf : Str → List Subscription) (region : Str) (alarm : Alarm)
    (h1 : ¬ safe_len_alarm_actions alarm = 0) :
    ∀ row ∈ processAlarmNew pd_lookup subsOf region alarm,
      row.alarmActionStatus =
        (if alarm.actionsEnabled.getD false then ("ENABLED").toList
         else ("DISABLED").toList) := by
  intro row hrow
  rw [processAlarmNew] at hrow
  simp only [h1, if_false] at hrow
  rw [mem_foldr_append] at hrow
  rcases hrow with ⟨arn, _, hx⟩ | hx
  · by_cases hs : seqStarts snsArnMarker arn = true
    · rw [if_pos hs] at hx
      exact mem_processTargetNew_status _ _ _ _ _ _ _ hx
    · rw [if_neg hs] at hx
      simp at hx
  · simp at hx

/-- Claim C8: for every alarm whose action list is empty or absent, both
scripts emit exactly one row for it, with status `NO_ACTION` and all
downstream fields empty, and nothing else is done with that alarm. -/
theorem claim_C8 :
    (∀ (pd_lookup : List (Str × PdInfo)) (subsOf : Str → List Subscription)
      (region : Str) (alarm : Alarm), alarm.alarmActions.getD [] = [] →
      processAlarm pd_lookup subsOf region alarm =
        [⟨region, alarm.alarmName.getD (("<no-name>").toList),
          ("NO_ACTION").toList, [], [], [], [], [], [], []⟩])
    ∧ (∀ (pd_lookup : List (Str × (Str × Str)))
      (subsOf : Str → List Subscription) (region : Str) (alarm : Alarm),
      alarm.alarmActions.getD [] = [] →
      processAlarmNew pd_lookup subsOf region alarm =
        [⟨region, alarm.alarmName.getD (("<no-name>").toList),
          ("NO_ACTION").toList, [], [], [], [], []⟩]) := by
  constructor
  · intro pd_lookup subsOf region alarm h
    rw [processAlarm]
    simp [h]
  · intro pd_lookup subsOf region alarm h
    have hz : safe_len_alarm_actions alarm = 0 := by
      rcases ha : alarm.alarmActions with _ | actions
      · simp [safe_len_alarm_actions, ha]
      · rw [ha] at h
        simp only [Option.getD_some] at h
        simp [safe_len_alarm_actions, ha, h]
    rw [processAlarmNew]
    simp [hz]

/-- Concrete instance of claim C8: an alarm whose record has no
`AlarmActions` field yields the single `NO_ACTION` row in both scripts. -/
theorem claim_C8_witness :
    processAlarm [] (fun _ => []) (("us-east-1").toList)
      ⟨some (("a1").toList), some true, none⟩ =
      [⟨("us-east-1").toList, ("a1").toList, ("NO_ACTION").toList,
        [], [], [], [], [], [], []⟩]
    ∧ processAlarmNew [] (fun _ => []) (("us-east-1").toList)
      ⟨some (("a1").toList), some true, none⟩ =
      [⟨("us-east-1").toList, ("a1").toList, ("NO_ACTION").toList,
        [], [], [], [], []⟩] :=
  ⟨claim_C8.1 _ _ _ _ (by decide), claim_C8.2 _ _ _ _ (by decide)⟩

/-- Claim C10: an alarm with a non-empty action list but no
`ActionsEnabled` field is processed exactly as one explicitly marked
disabled, and every row emitted for it carries status `DISABLED`, in both
scripts. -/
theorem claim_C10 :
    (∀ (pd_lookup : List (Str × PdInfo)) (subsOf : Str → List Subscription)
      (region : Str) (alarm : Alarm),
      alarm.alarmActions.getD [] ≠ [] → alarm.actionsEnabled = none →
      processAlarm pd_lookup subsOf region alarm =
        processAlarm pd_lookup subsOf region
          ⟨alarm.alarmName, some false, alarm.alarmActions⟩ ∧
      ∀ row ∈ processAlarm pd_lookup subsOf region alarm,
        row.alarmActionStatus = ("DISABLED").toList)
    ∧ (∀ (pd_lookup : List (Str × (Str × Str)))
      (subsOf : Str → List Subscription) (region : Str) (alarm : Alarm),
      alarm.alarmActions.getD [] ≠ [] → alarm.actionsEnabled = none →
      processAlarmNew pd_lookup subsOf region alarm =
        processAlarmNew pd_lookup subsOf region
          ⟨alarm.alarmName, some false, alarm.alarmActions⟩ ∧
      ∀ row ∈ processAlarmNew pd_lookup subsOf region alarm,
        row.alarmActionStatus = ("DISABLED").toList) := by
  constructor
  · intro pd_lookup subsOf region alarm h1 h2
    constructor
    · simp [processAlarm, h2]
    · intro row hrow
      have := processAlarm_status pd_lookup subsOf region alarm h1 row hrow
      rw [h2] at this
      simpa using this
  · intro pd_lookup subsOf region alarm h1 h2
    have hz : ¬ safe_len_alarm_actions alarm = 0 := by
      rcases ha : alarm.alarmActions with _ | actions
      · rw [ha] at h1
        simp at h1
      · rw [ha] at h1
        simp only [Option.getD_some] at h1
        simp [safe_len_alarm_actions, ha, h1]
    constructor
    · simp [processAlarmNew, h2, safe_len_alarm_actions]
    · intro row hrow
      have := processAlarmNew_status pd_lookup subsOf region alarm hz row hrow
      rw [h2] at this
      simpa using this

/-- Concrete instance of claim C10: an alarm with one SNS action and no
`ActionsEnabled` field produces the same rows as the explicitly disabled
alarm, and its row status is `DISABLED`, in both scripts. -/
theorem claim_C10_witness :
    (processAlarm [] (fun _ => []) (("us-east-1").toList)
        ⟨some (("a2").toList), none,
          some [("arn:aws:sns:us-east-1:1:t").toList]⟩ =
      processAlarm [] (fun _ => []) (("us-east-1").toList)
        ⟨some (("a2").toList), some false,
          some [("arn:aws:sns:us-east-1:1:t").toList]⟩ ∧
      ∀ row ∈ processAlarm [] (fun _ => []) (("us-east-1").toList)
        ⟨some (("a2").toList), none,
          some [("arn:aws:sns:us-east-1:1:t").toList]⟩,
        row.alarmActionStatus = ("DISABLED").toList)
    ∧ (processAlarmNew [] (fun _ => []) (("us-east-1").toList)
        ⟨some (("a2").toList), none,
          some [("arn:aws:sns:us-east-1:1:t").toList]⟩ =
      processAlarmNew [] (fun _ => []) (("us-east-1").toList)
        ⟨some (("a2").toList), some false,
          some [("arn:aws:sns:us-east-1:1:t").toList]⟩ ∧
      ∀ row ∈ processAlarmNew [] (fun _ => []) (("us-east-1").toList)
        ⟨some (("a2").toList), none,
          some [("arn:aws:sns:us-east-1:1:t").toList]⟩,
        row.alarmActionStatus = ("DISABLED").toList) :=
  ⟨claim_C10.1 _ _ _ _ (by decide) rfl, claim_C10.2 _ _ _ _ (by decide) rfl⟩


/-- Claim C7: a subscription whose endpoint contains the marker and yields a
key absent from the lookup is not an error: it contributes exactly one row
carrying the extracted key and the sentinels `NOT_FOUND` for service id and
name and `UNKNOWN` for team id and name; and the loop emits exactly one row
per key-yielding subscription. -/
theorem claim_C7 :
    (∀ (pd_lookup : List (Str × PdInfo))
      (region alarm_name action_status sns_arn sns_name : Str)
      (sub : Subscription) (key : Str),
      containsSeq pdDomainMarker (sub.endpoint.getD []) = true →
      extract_key_from_pd (sub.endpoint.getD []) = some key →
      alookup pd_lookup key = none →
      subRow pd_lookup region alarm_name action_status sns_arn sns_name
        sub =
        some ⟨region, alarm_name, action_status, sns_arn, sns_name, key,
          ("NOT_FOUND").toList, ("NOT_FOUND").toList,
          ("UNKNOWN").toList, ("UNKNOWN").toList⟩)
    ∧ (∀ (pd_lookup : List (Str × PdInfo))
      (region alarm_name action_status sns_arn sns_name : Str)
      (subs : List Subscription) (b : Bool),
      (processSubsLoop pd_lookup region alarm_name action_status sns_arn
        sns_name subs b).1 =
        subs.filterMap
          (subRow pd_lookup region alarm_name action_status sns_arn
            sns_name)) := by
  constructor
  · intro pd_lookup region alarm_name action_status sns_arn sns_name sub key
      h1 h2 h3
    simp [subRow, h1, h2, h3, notFoundInfo]
  · exact processSubsLoop_fst

/-- Concrete instance of claim C7: a PagerDuty endpoint whose key `KMISS` is
not in the (empty) lookup resolves to the sentinel row. -/
theorem claim_C7_witness :
    subRow [] (("us-east-1").toList) (("a3").toList)
      (("ENABLED").toList) (("arn:aws:sns:us-east-1:1:t").toList)
      (("t").toList)
      ⟨some (("https://events.pagerduty.com/integration/KMISS/enqueue").toList)⟩ =
      some ⟨("us-east-1").toList, ("a3").toList, ("ENABLED").toList,
        ("arn:aws:sns:us-east-1:1:t").toList, ("t").toList,
        ("KMISS").toList, ("NOT_FOUND").toList, ("NOT_FOUND").toList,
        ("UNKNOWN").toList, ("UNKNOWN").toList⟩ :=
  claim_C7.1 _ _ _ _ _ _ _ _ (by decide) (by decide) (by decide)

/-- Claim C4: the `pd_found` flag of a target is the disjunction, over its
subscriptions, of "endpoint contains the marker and yields a key"; a target
all of whose subscriptions lack the marker or yield no key therefore emits
exactly the degenerate row with empty key, service and team fields but
populated topic ARN, topic name and status. Both scripts. -/
theorem claim_C4 :
    (∀ (pd_lookup : List (Str × PdInfo))
      (region alarm_name action_status sns_arn sns_name : Str)
      (subs : List Subscription) (b : Bool),
      (processSubsLoop pd_lookup region alarm_name action_status sns_arn
        sns_name subs b).2 =
        (b || subs.any (fun sub =>
          containsSeq pdDomainMarker (sub.endpoint.getD []) &&
            (extract_key_from_pd (sub.endpoint.getD [])).isSome)))
    ∧ (∀ (pd_lookup : List (Str × PdInfo))
      (region alarm_name action_status sns_arn : Str)
      (subs : List Subscription),
      (∀ sub ∈ subs,
        containsSeq pdDomainMarker (sub.endpoint.getD []) = false ∨
          extract_key_from_pd (sub.endpoint.getD []) = none) →
      processTarget pd_lookup region alarm_name action_status sns_arn
        subs =
        [⟨region, alarm_name, action_status, sns_arn,
          afterLastColon sns_arn, [], [], [], [], []⟩])
    ∧ (∀ (pd_lookup : List (Str × (Str × Str)))
      (region alarm_name action_status sns_arn sns_name : Str)
      (subs : List Subscription) (b : Bool),
      (processSubsLoopNew pd_lookup region alarm_name action_status sns_arn
        sns_name subs b).2 =
        (b || subs.any (fun sub =>
          containsSeq pdDomainMarker (sub.endpoint.getD []) &&
            (extract_integration_key_from_url (sub.endpoint.getD [])).isSome)))
    ∧ (∀ (pd_lookup : List (Str × (Str × Str)))
      (region alarm_name action_status sns_arn : Str)
      (subs : List Subscription),
      (∀ sub ∈ subs,
        containsSeq pdDomainMarker (sub.endpoint.getD []) = false ∨
          extract_integration_key_from_url (sub.endpoint.getD []) = none) →
      processTargetNew pd_lookup region alarm_name action_status sns_arn
        subs =
        [⟨region, alarm_name, action_status, sns_arn,
          snsNameOfArnNew sns_arn, [], [], []⟩]) := by
  refine ⟨processSubsLoop_snd, ?_, processSubsLoopNew_snd, ?_⟩
  · intro pd_lookup region alarm_name action_status sns_arn subs h
    have hflag : (processSubsLoop pd_lookup region alarm_name action_status
        sns_arn (afterLastColon sns_arn) subs false).2 = false := by
      rw [processSubsLoop_snd, Bool.false_or, List.any_eq_false]
      intro sub hsub
      rcases h sub hsub with hc | hk
      · simp [hc]
      · simp [hk]
    have hrows : (processSubsLoop pd_lookup region alarm_name action_status
        sns_arn (afterLastColon sns_arn) subs false).1 = [] := by
      rw [processSubsLoop_fst, List.filterMap_eq_nil_iff]
      intro sub hsub
      exact subRow_none _ _ _ _ _ _ _ (h sub hsub)
    rw [processTarget]
    rw [hflag]
    simp [hrows]
  · intro pd_lookup region alarm_name action_status sns_arn subs h
    have hflag : (processSubsLoopNew pd_lookup region alarm_name
        action_status sns_arn (snsNameOfArnNew sns_arn) subs false).2 =
        false := by
      rw [processSubsLoopNew_snd, Bool.false_or, List.any_eq_false]
      intro sub hsub
      rcases h sub hsub with hc | hk
      · simp [hc]
      · simp [hk]
    have hrows : (processSubsLoopNew pd_lookup region alarm_name
        action_status sns_arn (snsNameOfArnNew sns_arn) subs false).1 =
        [] := by
      rw [processSubsLoopNew_fst, List.filterMap_eq_nil_iff]
      intro sub hsub
      exact subRowNew_none _ _ _ _ _ _ _ (h sub hsub)
    rw [processTargetNew]
    rw [hflag]
    simp [hrows]

/-- Concrete instance of claim C4: a target with one PagerDuty endpoint that
yields no key and one non-PagerDuty endpoint emits exactly the degenerate
row, in both scripts. -/
theorem claim_C4_witness :
    processTarget [] (("us-east-1").toList) (("a4").toList)
      (("ENABLED").toList) (("arn:aws:sns:us-east-1:1:t").toList)
      [⟨some (("https://events.pagerduty.com/nothing").toList)⟩,
       ⟨some (("mailto:ops@example.com").toList)⟩] =
      [⟨("us-east-1").toList, ("a4").toList, ("ENABLED").toList,
        ("arn:aws:sns:us-east-1:1:t").toList,
        afterLastColon (("arn:aws:sns:us-east-1:1:t").toList),
        [], [], [], [], []⟩]
    ∧ processTargetNew [] (("us-east-1").toList) (("a4").toList)
      (("ENABLED").toList) (("arn:aws:sns:us-east-1:1:t").toList)
      [⟨some (("https://events.pagerduty.com/nothing").toList)⟩,
       ⟨some (("mailto:ops@example.com").toList)⟩] =
      [⟨("us-east-1").toList, ("a4").toList, ("ENABLED").toList,
        ("arn:aws:sns:us-east-1:1:t").toList,
        snsNameOfArnNew (("arn:aws:sns:us-east-1:1:t").toList),
        [], [], []⟩] :=
  ⟨claim_C4.2.1 _ _ _ _ _ _ (by decide),
   claim_C4.2.2.2 _ _ _ _ _ _ (by decide)⟩


/-- Claim C1 fails on the code: this alarm has a non-empty action list whose
single target is a scaling-policy ARN, not an SNS topic; both scripts skip
it with `continue` and append no row at all for the alarm. -/
theorem claim_C1_counterexample :
    processAlarm [] (fun _ => []) (("us-east-1").toList)
      ⟨some (("a5").toList), some true,
        some [("arn:aws:autoscaling:us-east-1:1:policy").toList]⟩ = []
    ∧ (⟨some (("a5").toList), some true,
        some [("arn:aws:autoscaling:us-east-1:1:policy").toList]⟩ :
          Alarm).alarmActions.getD [] ≠ []
    ∧ processAlarmNew [] (fun _ => []) (("us-east-1").toList)
      ⟨some (("a5").toList), some true,
        some [("arn:aws:autoscaling:us-east-1:1:policy").toList]⟩ = [] :=
  ⟨by decide, by decide, by decide⟩

/-- Claim C1 as amended: an alarm with an empty action list, and an alarm
with at least one SNS-topic action, each yield at least one row; but an
alarm whose non-empty action list contains no SNS-topic reference yields no
row at all. Both scripts. -/
theorem claim_C1_amended :
    (∀ (pd_lookup : List (Str × PdInfo)) (subsOf : Str → List Subscription)
      (region : Str) (alarm : Alarm),
      (alarm.alarmActions.getD [] = [] ∨
        ∃ arn ∈ alarm.alarmActions.getD [],
          seqStarts snsArnMarker arn = true) →
      processAlarm pd_lookup subsOf region alarm ≠ [])
    ∧ (∀ (pd_lookup : List (Str × PdInfo)) (subsOf : Str → List Subscription)
      (region : Str) (alarm : Alarm),
      (∀ arn ∈ alarm.alarmActions.getD [],
        seqStarts snsArnMarker arn = false) →
      alarm.alarmActions.getD [] ≠ [] →
      processAlarm pd_lookup subsOf region alarm = [])
    ∧ (∀ (pd_lookup : List (Str × (Str × Str)))
      (subsOf : Str → List Subscription) (region : Str) (alarm : Alarm),
      (alarm.alarmActions.getD [] = [] ∨
        ∃ arn ∈ alarm.alarmActions.getD [],
          seqStarts snsArnMarker arn = true) →
      processAlarmNew pd_lookup subsOf region alarm ≠ [])
    ∧ (∀ (pd_lookup : List (Str × (Str × Str)))
      (subsOf : Str → List Subscription) (region : Str) (alarm : Alarm),
      (∀ arn ∈ alarm.alarmActions.getD [],
        seqStarts snsArnMarker arn = false) →
      alarm.alarmActions.getD [] ≠ [] →
      processAlarmNew pd_lookup subsOf region alarm = []) := by
  refine ⟨?_, ?_, ?_, ?_⟩
  · intro pd_lookup subsOf region alarm h
    by_cases hnil : alarm.alarmActions.getD [] = []
    · rw [processAlarm]
      simp [hnil]
    · rcases h with h | ⟨arn, harn, hs⟩
      · exact absurd h hnil
      · rw [processAlarm]
        simp only [hnil, if_false]
        intro hcontra
        rw [foldr_append_eq_nil] at hcontra
        have := hcontra arn harn
        rw [if_pos hs] at this
        exact processTarget_ne_nil _ _ _ _ _ _ this
  · intro pd_lookup subsOf region alarm h hnil
    rw [processAlarm]
    simp only [hnil, if_false]
    rw [foldr_append_eq_nil]
    intro arn harn
    rw [if_neg]
    rw [h arn harn]
    simp
  · intro pd_lookup subsOf region alarm h
    by_cases hz : safe_len_alarm_actions alarm = 0
    · rw [processAlarmNew]
      simp [hz]
    · have hnil : ¬ alarm.alarmActions.getD [] = [] := by
        rcases ha : alarm.alarmActions with _ | actions
        · rw [safe_len_alarm_actions, ha] at hz
          simp at hz
        · rw [safe_len_alarm_actions, ha] at hz
          simp only [Option.getD_some]
          intro hcontra
          rw [hcontra] at hz
          simp at hz
      rcases h with h | ⟨arn, harn, hs⟩
      · exact absurd h hnil
      · rw [processAlarmNew]
        simp only [hz, if_false]
        intro hcontra
        rw [foldr_append_eq_nil] at hcontra
        have := hcontra arn harn
        rw [if_pos hs] at this
        exact processTargetNew_ne_nil _ _ _ _ _ _ this
  · intro pd_lookup subsOf region alarm h hnil
    have hz : ¬ safe_len_alarm_actions alarm = 0 := by
      rcases ha : alarm.alarmActions with _ | actions
      · rw [ha] at hnil
        simp at hnil
      · rw [ha] at hnil
        simp only [Option.getD_some] at hnil
        simp [safe_len_alarm_actions, ha, hnil]
    rw [processAlarmNew]
    simp only [hz, if_false]
    rw [foldr_append_eq_nil]
    intro arn harn
    rw [if_neg]
    rw [h arn harn]
    simp
  
/-- Concrete instance of the amended claim C1: an alarm with one SNS action
yields rows, and an alarm with one Lambda-style action yields none. -/
theorem claim_C1_witness :
    processAlarm [] (fun _ => []) (("us-east-1").toList)
      ⟨some (("a6").toList), some true,
        some [("arn:aws:sns:us-east-1:1:t").toList]⟩ ≠ []
    ∧ processAlarm [] (fun _ => []) (("us-east-1").toList)
      ⟨some (("a6").toList), some true,
        some [("lambda-target").toList]⟩ = [] :=
  ⟨claim_C1_amended.1 _ _ _ _
    (Or.inr ⟨("arn:aws:sns:us-east-1:1:t").toList, by decide, by decide⟩),
   claim_C1_amended.2.1 _ _ _ _ (by decide) (by decide)⟩


theorem regionRowsNew_error (pd_lookup : List (Str × (Str × Str)))
    (alarmsFn : Str → Except Unit (List Alarm))
    (subsFn : Str → Str → List Subscription) (region : Str) (e : Unit)
    (h : alarmsFn region = Except.error e) :
    regionRowsNew pd_lookup alarmsFn subsFn region = [] := by
  simp [regionRowsNew, describe_alarms_paginated, h]

theorem mainAll_error (pd_lookup : List (Str × PdInfo))
    (alarmsFn : Str → Except Unit (List Alarm))
    (subsFn : Str → Str → List Subscription) :
    ∀ (regions : List Str) (bad : Str) (e : Unit), bad ∈ regions →
      alarmsFn bad = Except.error e →
      mainAll pd_lookup alarmsFn subsFn regions = Except.error () := by
  intro regions
  induction regions with
  | nil =>
    intro bad e hmem
    simp at hmem
  | cons r rest ih =>
    intro bad e hmem herr
    rw [mainAll]
    rcases hr : cw_alarms alarmsFn r with e2 | alarms
    · cases e2
      simp
    · have hbad : bad ∈ rest := by
        rcases List.mem_cons.1 hmem with rfl | h2
        · rw [cw_alarms, herr] at hr
          cases hr
        · exact h2
      rw [ih bad e hbad herr]

/-- Claim C5 fails on `all.py`: with two regions of which the second fails,
`cw_alarms` has no exception handling, so the whole run aborts and no rows
at all are produced, not even for the healthy region — which alone would
have produced a row. -/
theorem claim_C5_counterexample :
    mainAll []
      (fun region => if region = ("us-east-1").toList
        then Except.ok [⟨some (("a7").toList), some true, none⟩]
        else Except.error ())
      (fun _ _ => [])
      [("us-east-1").toList, ("eu-west-1").toList] = Except.error ()
    ∧ mainAll []
      (fun region => if region = ("us-east-1").toList
        then Except.ok [⟨some (("a7").toList), some true, none⟩]
        else Except.error ())
      (fun _ _ => [])
      [("us-east-1").toList] =
      Except.ok [⟨("us-east-1").toList, ("a7").toList,
        ("NO_ACTION").toList, [], [], [], [], [], [], []⟩] :=
  ⟨rfl, rfl⟩

/-- Claim C5 as amended: in `new.py` a failed region is treated as zero
alarms — it contributes no rows, and the run completes producing exactly
the other regions' rows; in `all.py`, however, a region whose alarm-list
call fails aborts the whole run with no output. -/
theorem claim_C5_amended :
    (∀ (pd_lookup : List (Str × (Str × Str)))
      (alarmsFn : Str → Except Unit (List Alarm))
      (subsFn : Str → Str → List Subscription) (region : Str) (e : Unit),
      alarmsFn region = Except.error e →
      regionRowsNew pd_lookup alarmsFn subsFn region = [])
    ∧ (∀ (pd_lookup : List (Str × (Str × Str)))
      (alarmsFn : Str → Except Unit (List Alarm))
      (subsFn : Str → Str → List Subscription)
      (regions1 regions2 : List Str) (bad : Str) (e : Unit),
      alarmsFn bad = Except.error e →
      mainNew pd_lookup alarmsFn subsFn (regions1 ++ bad :: regions2) =
        mainNew pd_lookup alarmsFn subsFn (regions1 ++ regions2))
    ∧ (∀ (pd_lookup : List (Str × PdInfo))
      (alarmsFn : Str → Except Unit (List Alarm))
      (subsFn : Str → Str → List Subscription) (regions : List Str)
      (bad : Str) (e : Unit), bad ∈ regions →
      alarmsFn bad = Except.error e →
      mainAll pd_lookup alarmsFn subsFn regions = Except.error ()) := by
  refine ⟨regionRowsNew_error, ?_, ?_⟩
  · intro pd_lookup alarmsFn subsFn regions1 regions2 bad e herr
    rw [mainNew, mainNew]
    rw [List.map_append, List.map_append, List.map_cons]
    rw [regionRowsNew_error pd_lookup alarmsFn subsFn bad e herr]
    rw [List.flatten_append, List.flatten_append, List.flatten_cons]
    simp
  · intro pd_lookup alarmsFn subsFn regions bad e hmem herr
    exact mainAll_error pd_lookup alarmsFn subsFn regions bad e hmem herr

/-- Concrete instance of the amended claim C5: a failing region contributes
no rows to `new.py`, dropping it leaves `mainNew` unchanged, and a failing
region aborts `mainAll`. -/
theorem claim_C5_witness :
    regionRowsNew [] (fun _ => Except.error ()) (fun _ _ => [])
      (("eu-west-1").toList) = []
    ∧ mainNew []
      (fun region => if region = ("us-east-1").toList
        then Except.ok [⟨some (("a7").toList), some true, none⟩]
        else Except.error ())
      (fun _ _ => [])
      ([("us-east-1").toList] ++ ("eu-west-1").toList :: []) =
      mainNew []
      (fun region => if region = ("us-east-1").toList
        then Except.ok [⟨some (("a7").toList), some true, none⟩]
        else Except.error ())
      (fun _ _ => [])
      ([("us-east-1").toList] ++ [])
    ∧ mainAll [] (fun _ => Except.error ()) (fun _ _ => [])
      [("us-east-1").toList] = Except.error () :=
  ⟨claim_C5_amended.1 [] _ (fun _ _ => []) _ () rfl,
   claim_C5_amended.2.1 [] _ (fun _ _ => []) [("us-east-1").toList] [] _ ()
     rfl,
   claim_C5_amended.2.2 [] _ (fun _ _ => []) [("us-east-1").toList]
     (("us-east-1").toList) () (by simp) rfl⟩


theorem mem_dictInsert {β : Type} (m : List (Str × β)) (k : Str) (v : β)
    (p : Str × β) (h : p ∈ dictInsert m k v) : p ∈ m ∨ p = (k, v) := by
  rw [dictInsert] at h
  by_cases hc : m.any (fun kv => kv.1 = k) = true
  · rw [if_pos hc] at h
    rw [List.mem_map] at h
    rcases h with ⟨kv, hkv, hf⟩
    by_cases hk : kv.1 = k
    · rw [if_pos hk] at hf
      exact Or.inr hf.symm
    · rw [if_neg hk] at hf
      exact Or.inl (hf ▸ hkv)
  · rw [if_neg hc] at h
    rw [List.mem_append, List.mem_singleton] at h
    exact h

theorem integFold_keys {β : Type} (v0 : β) (l : List Integ) :
    ∀ (m : List (Str × β)), (∀ p ∈ m, p.1 ≠ []) →
      ∀ p ∈ l.foldl (fun m integ =>
        match integ.integration_key with
        | none => m
        | some key => if key = [] then m else dictInsert m key v0) m,
        p.1 ≠ [] := by
  induction l with
  | nil =>
    intro m hm p hp
    rw [List.foldl_nil] at hp
    exact hm p hp
  | cons integ rest ih =>
    intro m hm
    rw [List.foldl_cons]
    apply ih
    intro p hp
    rcases hk : integ.integration_key with _ | key
    · simp only [hk] at hp
      exact hm p hp
    · simp only [hk] at hp
      by_cases hke : key = []
      · rw [if_pos hke] at hp
        exact hm p hp
      · rw [if_neg hke] at hp
        rcases mem_dictInsert _ _ _ _ hp with h | hpk
        · exact hm p h
        · rw [hpk]
          exact hke

theorem integFold_val {β : Type} (v0 : β) (l : List Integ) :
    ∀ (m : List (Str × β)) (p : Str × β),
      p ∈ l.foldl (fun m integ =>
        match integ.integration_key with
        | none => m
        | some key => if key = [] then m else dictInsert m key v0) m →
      p ∈ m ∨ p.2 = v0 := by
  induction l with
  | nil =>
    intro m p hp
    rw [List.foldl_nil] at hp
    exact Or.inl hp
  | cons integ rest ih =>
    intro m p hp
    rw [List.foldl_cons] at hp
    rcases ih _ p hp with h | h
    · rcases hk : integ.integration_key with _ | key
      · simp only [hk] at h
        exact Or.inl h
      · simp only [hk] at h
        by_cases hke : key = []
        · rw [if_pos hke] at h
          exact Or.inl h
        · rw [if_neg hke] at h
          rcases mem_dictInsert _ _ _ _ h with h2 | h2
          · exact Or.inl h2
          · rw [h2]
            exact Or.inr rfl
    · exact Or.inr h

theorem svcStep_keys (teams_map : List (Str × Str)) :
    ∀ (page : List Service) (m : List (Str × PdInfo)),
      (∀ p ∈ m, p.1 ≠ []) → ∀ p ∈ svcStep teams_map m page, p.1 ≠ [] := by
  intro page
  induction page with
  | nil =>
    intro m hm p hp
    rw [svcStep, List.foldl_nil] at hp
    exact hm p hp
  | cons s rest ih =>
    intro m hm
    have hinner := integFold_keys (serviceRecord teams_map s)
      (s.integrations.getD []) m hm
    have := ih _ hinner
    simpa only [svcStep, List.foldl_cons] using this

theorem svcStepNew_keys :
    ∀ (page : List Service) (m : List (Str × (Str × Str))),
      (∀ p ∈ m, p.1 ≠ []) → ∀ p ∈ svcStepNew m page, p.1 ≠ [] := by
  intro page
  induction page with
  | nil =>
    intro m hm p hp
    rw [svcStepNew, List.foldl_nil] at hp
    exact hm p hp
  | cons s rest ih =>
    intro m hm
    have hinner := integFold_keys (s.id, s.name)
      (s.integrations.getD []) m hm
    have := ih _ hinner
    simpa only [svcStepNew, List.foldl_cons] using this

theorem mem_svcStep (teams_map : List (Str × Str)) :
    ∀ (page : List Service) (m : List (Str × PdInfo)) (p : Str × PdInfo),
      p ∈ svcStep teams_map m page →
      p ∈ m ∨ ∃ s ∈ page, p.2 = serviceRecord teams_map s := by
  intro page
  induction page with
  | nil =>
    intro m p hp
    rw [svcStep, List.foldl_nil] at hp
    exact Or.inl hp
  | cons s rest ih =>
    intro m p hp
    rw [svcStep, List.foldl_cons] at hp
    have hp2 : p ∈ svcStep teams_map
        ((s.integrations.getD []).foldl (fun m integ =>
          match integ.integration_key with
          | none => m
          | some key =>
            if key = [] then m
            else dictInsert m key (serviceRecord teams_map s)) m) rest := by
      simpa only [svcStep] using hp
    rcases ih _ p hp2 with h | ⟨s2, hs2, hval⟩
    · rcases integFold_val _ _ _ _ h with h2 | h2
      · exact Or.inl h2
      · exact Or.inr ⟨s, by simp, h2⟩
    · exact Or.inr ⟨s2, by simp [hs2], hval⟩

theorem alookup_eq_none {β : Type} (m : List (Str × β)) (k : Str)
    (h : ∀ p ∈ m, p.1 ≠ k) : alookup m k = none := by
  induction m with
  | nil => rfl
  | cons kv rest ih =>
    rw [alookup]
    rw [if_neg (h kv (by simp))]
    exact ih (fun p hp => h p (by simp [hp]))

theorem paginateAcc_inv {α β : Type} (P : β → Prop) (step : β → List α → β)
    (hstep : ∀ acc items, P acc → P (step acc items)) :
    ∀ (script : List (PdResp α)) (off : Nat) (acc : β), P acc →
      ∀ res, paginateAcc step script off acc = some res → P res := by
  intro script
  induction script with
  | nil =>
    intro off acc hacc res h
    simp [paginateAcc] at h
  | cons resp rest ih =>
    intro off acc hacc res h
    cases resp with
    | rate r =>
      rw [paginateAcc] at h
      exact ih _ _ hacc res h
    | ok items more =>
      rw [paginateAcc] at h
      cases more with
      | true =>
        rw [if_pos rfl] at h
        exact ih _ _ (hstep _ _ hacc) res h
      | false =>
        rw [if_neg (by decide)] at h
        cases h
        exact hstep _ _ hacc


/-- Claim C6: during index construction a service with no associated team is
recorded with team id and name `UNKNOWN`; a service with teams is recorded
with its first team's id, the name resolved through the previously fetched
team mapping with `UNKNOWN` as fallback; and every record the page
processing inserts is of exactly this shape. -/
theorem claim_C6 :
    (∀ (teams_map : List (Str × Str)) (s : Service), s.teams = [] →
      serviceRecord teams_map s =
        ⟨s.id, s.name, ("UNKNOWN").toList, ("UNKNOWN").toList⟩)
    ∧ (∀ (teams_map : List (Str × Str)) (s : Service) (t : Str)
      (ts : List Str), s.teams = t :: ts →
      serviceRecord teams_map s =
        ⟨s.id, s.name, t, (alookup teams_map t).getD (("UNKNOWN").toList)⟩)
    ∧ (∀ (teams_map : List (Str × Str)) (page : List Service)
      (m : List (Str × PdInfo)) (p : Str × PdInfo),
      p ∈ svcStep teams_map m page →
      p ∈ m ∨ ∃ s ∈ page, p.2 = serviceRecord teams_map s) := by
  refine ⟨?_, ?_, fun teams_map page => mem_svcStep teams_map page⟩
  · intro teams_map s h
    simp [serviceRecord, h]
  · intro teams_map s t ts h
    simp [serviceRecord, h]

/-- Concrete instance of claim C6: a teamless service resolves to
`UNKNOWN`/`UNKNOWN`, a service with team `T1` resolves through the mapping,
and the entry `svcStep` builds for it carries exactly that record. -/
theorem claim_C6_witness :
    serviceRecord [((("T1").toList), ("Platform").toList)]
      ⟨("S1").toList, ("svc1").toList, [], none⟩ =
      ⟨("S1").toList, ("svc1").toList, ("UNKNOWN").toList,
        ("UNKNOWN").toList⟩
    ∧ serviceRecord [((("T1").toList), ("Platform").toList)]
      ⟨("S2").toList, ("svc2").toList, [("T1").toList], none⟩ =
      ⟨("S2").toList, ("svc2").toList, ("T1").toList,
        (alookup [((("T1").toList), ("Platform").toList)]
          (("T1").toList)).getD (("UNKNOWN").toList)⟩
    ∧ ((("K1").toList,
        serviceRecord [((("T1").toList), ("Platform").toList)]
          ⟨("S2").toList, ("svc2").toList, [("T1").toList],
            some [⟨some (("K1").toList)⟩]⟩) ∈ ([] : List (Str × PdInfo)) ∨
      ∃ s ∈ [(⟨("S2").toList, ("svc2").toList, [("T1").toList],
          some [⟨some (("K1").toList)⟩]⟩ : Service)],
        ((("K1").toList,
          serviceRecord [((("T1").toList), ("Platform").toList)]
            ⟨("S2").toList, ("svc2").toList, [("T1").toList],
              some [⟨some (("K1").toList)⟩]⟩) : Str × PdInfo).2 =
          serviceRecord [((("T1").toList), ("Platform").toList)] s) :=
  ⟨claim_C6.1 _ _ rfl, claim_C6.2.1 _ _ _ _ rfl,
   claim_C6.2.2 _ _ _ _ (by decide)⟩

/-- Claim C9: every key of either built key index is non-empty (absent,
empty or otherwise falsy `integration_key` fields are skipped), so looking
up the empty key never succeeds. -/
theorem claim_C9 :
    (∀ (teamScript : List (PdResp TeamObj))
      (svcScript : List (PdResp Service)) (idx : List (Str × PdInfo)),
      fetch_all_pd_services_with_integrations teamScript svcScript =
        some idx →
      (∀ p ∈ idx, p.1 ≠ []) ∧ alookup idx [] = none)
    ∧ (∀ (svcScript : List (PdResp Service))
      (idx : List (Str × (Str × Str))),
      fetch_pagerduty_services_for_team svcScript = some idx →
      (∀ p ∈ idx, p.1 ≠ []) ∧ alookup idx [] = none) := by
  constructor
  · intro teamScript svcScript idx h
    rw [fetch_all_pd_services_with_integrations] at h
    rcases ht : fetch_all_pd_teams teamScript with _ | teams_map
    · rw [ht] at h
      cases h
    · rw [ht] at h
      have hkeys := paginateAcc_inv (fun m => ∀ p ∈ m, p.1 ≠ [])
        (svcStep teams_map)
        (fun acc items hacc => svcStep_keys teams_map items acc hacc)
        svcScript 0 [] (by simp) idx h
      exact ⟨hkeys, alookup_eq_none idx [] hkeys⟩
  · intro svcScript idx h
    rw [fetch_pagerduty_services_for_team] at h
    have hkeys := paginateAcc_inv (fun m => ∀ p ∈ m, p.1 ≠ [])
      svcStepNew
      (fun acc items hacc => svcStepNew_keys items acc hacc)
      svcScript 0 [] (by simp) idx h
    exact ⟨hkeys, alookup_eq_none idx [] hkeys⟩

/-- Concrete instance of claim C9: a service page with one real key, one
empty key and one absent key yields an index with the single non-empty key
`K1`, in both fetchers. -/
theorem claim_C9_witness :
    ((∀ p ∈ [((("K1").toList),
        (⟨("S1").toList, ("svc1").toList, ("UNKNOWN").toList,
          ("UNKNOWN").toList⟩ : PdInfo))], p.1 ≠ []) ∧
      alookup [((("K1").toList),
        (⟨("S1").toList, ("svc1").toList, ("UNKNOWN").toList,
          ("UNKNOWN").toList⟩ : PdInfo))] [] = none)
    ∧ ((∀ p ∈ [((("K1").toList), ((("S1").toList), ("svc1").toList))],
        p.1 ≠ []) ∧
      alookup [((("K1").toList), ((("S1").toList), ("svc1").toList))] [] =
        none) :=
  ⟨claim_C9.1 [PdResp.ok [] false]
    [PdResp.ok [⟨("S1").toList, ("svc1").toList, [],
      some [⟨some (("K1").toList)⟩, ⟨some []⟩, ⟨none⟩]⟩] false] _ rfl,
   claim_C9.2
    [PdResp.ok [⟨("S1").toList, ("svc1").toList, [],
      some [⟨some (("K1").toList)⟩, ⟨some []⟩, ⟨none⟩]⟩] false] _ rfl⟩


theorem paginateAcc_filter {α β : Type} (step : β → List α → β) :
    ∀ (script : List (PdResp α)) (off : Nat) (acc : β),
      paginateAcc step script off acc =
        paginateAcc step (script.filter respIsOk) off acc := by
  intro script
  induction script with
  | nil =>
    intro off acc
    rfl
  | cons resp rest ih =>
    intro off acc
    cases resp with
    | rate r =>
      rw [paginateAcc, List.filter_cons]
      simp only [respIsOk, if_false, Bool.false_eq_true]
      exact ih off acc
    | ok items more =>
      rw [paginateAcc, List.filter_cons]
      simp only [respIsOk, if_true]
      rw [paginateAcc]
      cases more with
      | true => simp only [if_pos rfl]; exact ih _ _
      | false => rfl

theorem pageOffsets_ok_true {α : Type} (items : List α)
    (rest : List (PdResp α)) (off : Nat) :
    pageOffsets (PdResp.ok items true :: rest) off =
      off :: pageOffsets rest (off + pdPageLimit) := rfl

theorem pageOffsets_ok_false {α : Type} (items : List α)
    (rest : List (PdResp α)) (off : Nat) :
    pageOffsets (PdResp.ok items false :: rest) off = [off] := rfl

theorem rateWaits_ok_true {α : Type} (items : List α)
    (rest : List (PdResp α)) :
    rateWaits (PdResp.ok items true :: rest) = none :: rateWaits rest := rfl

theorem pageOffsets_head {α : Type} (script : List (PdResp α)) (off x : Nat)
    (h : (pageOffsets script off)[0]? = some x) : x = off := by
  cases script with
  | nil => simp [pageOffsets] at h
  | cons resp rest =>
    cases resp with
    | rate r =>
      rw [pageOffsets] at h
      simp only [List.getElem?_cons_zero, Option.some.injEq] at h
      exact h.symm
    | ok items more =>
      cases more with
      | true =>
        rw [pageOffsets_ok_true] at h
        simp only [List.getElem?_cons_zero, Option.some.injEq] at h
        exact h.symm
      | false =>
        rw [pageOffsets_ok_false] at h
        simp only [List.getElem?_cons_zero, Option.some.injEq] at h
        exact h.symm

theorem pageOffsets_rate {α : Type} :
    ∀ (script : List (PdResp α)) (off i : Nat) (r : Option Nat),
      script[i]? = some (PdResp.rate r) →
      ∀ o, (pageOffsets script off)[i]? = some o →
        ((rateWaits script)[i]? = some (some (r.getD 5)) ∧
         ∀ o2, (pageOffsets script off)[i+1]? = some o2 → o2 = o) := by
  intro script
  induction script with
  | nil =>
    intro off i r h
    simp at h
  | cons resp rest ih =>
    intro off i r h o ho
    cases i with
    | zero =>
      simp only [List.getElem?_cons_zero, Option.some.injEq] at h
      subst h
      rw [pageOffsets] at ho
      simp only [List.getElem?_cons_zero, Option.some.injEq] at ho
      constructor
      · rw [rateWaits]
        simp
      · intro o2 ho2
        rw [pageOffsets] at ho2
        simp only [List.getElem?_cons_succ] at ho2
        rw [← ho]
        exact pageOffsets_head rest off o2 ho2
    | succ j =>
      simp only [List.getElem?_cons_succ] at h
      cases resp with
      | rate r2 =>
        rw [pageOffsets] at ho
        simp only [List.getElem?_cons_succ] at ho
        have hrec := ih off j r h o ho
        constructor
        · rw [rateWaits]
          simp only [List.getElem?_cons_succ]
          exact hrec.1
        · intro o2 ho2
          rw [pageOffsets] at ho2
          simp only [List.getElem?_cons_succ] at ho2
          exact hrec.2 o2 ho2
      | ok items more =>
        cases more with
        | true =>
          rw [pageOffsets_ok_true] at ho
          simp only [List.getElem?_cons_succ] at ho
          have hrec := ih (off + pdPageLimit) j r h o ho
          constructor
          · rw [rateWaits_ok_true]
            simp only [List.getElem?_cons_succ]
            exact hrec.1
          · intro o2 ho2
            rw [pageOffsets_ok_true] at ho2
            simp only [List.getElem?_cons_succ] at ho2
            exact hrec.2 o2 ho2
        | false =>
          rw [pageOffsets_ok_false] at ho
          simp only [List.getElem?_cons_succ] at ho
          simp at ho

theorem pageOffsets_advance {α : Type} :
    ∀ (script : List (PdResp α)) (off i : Nat) (items : List α),
      script[i]? = some (PdResp.ok items true) →
      ∀ o, (pageOffsets script off)[i]? = some o →
      ∀ o2, (pageOffsets script off)[i+1]? = some o2 →
        o2 = o + pdPageLimit := by
  intro script
  induction script with
  | nil =>
    intro off i items h
    simp at h
  | cons resp rest ih =>
    intro off i items h o ho o2 ho2
    cases i with
    | zero =>
      simp only [List.getElem?_cons_zero, Option.some.injEq] at h
      subst h
      rw [pageOffsets_ok_true] at ho ho2
      simp only [List.getElem?_cons_zero, Option.some.injEq] at ho
      simp only [List.getElem?_cons_succ] at ho2
      rw [← ho]
      exact pageOffsets_head rest (off + pdPageLimit) o2 ho2
    | succ j =>
      simp only [List.getElem?_cons_succ] at h
      cases resp with
      | rate r2 =>
        rw [pageOffsets] at ho ho2
        simp only [List.getElem?_cons_succ] at ho ho2
        exact ih off j items h o ho o2 ho2
      | ok items2 more =>
        cases more with
        | true =>
          rw [pageOffsets_ok_true] at ho ho2
          simp only [List.getElem?_cons_succ] at ho ho2
          exact ih (off + pdPageLimit) j items h o ho o2 ho2
        | false =>
          rw [pageOffsets_ok_false] at ho
          simp only [List.getElem?_cons_succ] at ho
          simp at ho

/-- Claim C3: in the offset-pagination loops a 429 response causes a wait of
`Retry-After` seconds (5 when the header is absent) and a re-request of the
same offset; the offset advances by the page limit only after a successful
page; and the accumulated result is exactly that of the rate-limit-free
script, so no record is duplicated or dropped by a rate-limit signal — for
the generic loop and for all three fetchers. -/
theorem claim_C3 :
    (∀ (α β : Type) (step : β → List α → β) (script : List (PdResp α))
      (off : Nat) (acc : β),
      paginateAcc step script off acc =
        paginateAcc step (script.filter respIsOk) off acc)
    ∧ (∀ (α : Type) (script : List (PdResp α)) (off i : Nat)
      (r : Option Nat),
      script[i]? = some (PdResp.rate r) →
      ∀ o, (pageOffsets script off)[i]? = some o →
        ((rateWaits script)[i]? = some (some (r.getD 5)) ∧
         ∀ o2, (pageOffsets script off)[i+1]? = some o2 → o2 = o))
    ∧ (∀ (α : Type) (script : List (PdResp α)) (off i : Nat)
      (items : List α),
      script[i]? = some (PdResp.ok items true) →
      ∀ o, (pageOffsets script off)[i]? = some o →
      ∀ o2, (pageOffsets script off)[i+1]? = some o2 →
        o2 = o + pdPageLimit)
    ∧ (∀ (teamScript : List (PdResp TeamObj)),
      fetch_all_pd_teams teamScript =
        fetch_all_pd_teams (teamScript.filter respIsOk))
    ∧ (∀ (teamScript : List (PdResp TeamObj))
      (svcScript : List (PdResp Service)),
      fetch_all_pd_services_with_integrations teamScript svcScript =
        fetch_all_pd_services_with_integrations
          (teamScript.filter respIsOk) (svcScript.filter respIsOk))
    ∧ (∀ (svcScript : List (PdResp Service)),
      fetch_pagerduty_services_for_team svcScript =
        fetch_pagerduty_services_for_team (svcScript.filter respIsOk)) := by
  refine ⟨fun α β => paginateAcc_filter, fun α => pageOffsets_rate,
    fun α => pageOffsets_advance, ?_, ?_, ?_⟩
  · intro teamScript
    exact paginateAcc_filter teamsStep teamScript 0 []
  · intro teamScript svcScript
    rw [fetch_all_pd_services_with_integrations,
      fetch_all_pd_services_with_integrations, fetch_all_pd_teams,
      fetch_all_pd_teams, ← paginateAcc_filter teamsStep teamScript 0 []]
    rcases ht : paginateAcc teamsStep teamScript 0 [] with _ | teams_map
    · rfl
    · exact paginateAcc_filter (svcStep teams_map) svcScript 0 []
  · intro svcScript
    exact paginateAcc_filter svcStepNew svcScript 0 []

/-- Concrete instance of claim C3: on the script "429 with Retry-After 3,
then a final page", the first two requests use offset 0 and the wait is 3
seconds; on "page with more, 429, final page", the offset advances from 0
to 100 after the successful page; and dropping the 429s leaves the fetched
teams unchanged. -/
theorem claim_C3_witness :
    ((rateWaits [PdResp.rate (some 3),
        PdResp.ok [(⟨("T1").toList, ("Platform").toList⟩ : TeamObj)]
          false])[0]? = some (some 3) ∧
      ∀ o2, (pageOffsets [PdResp.rate (some 3),
        PdResp.ok [(⟨("T1").toList, ("Platform").toList⟩ : TeamObj)]
          false] 0)[0+1]? = some o2 → o2 = 0)
    ∧ (∀ o2, (pageOffsets [PdResp.ok
        [(⟨("T1").toList, ("Platform").toList⟩ : TeamObj)] true,
        PdResp.rate none, PdResp.ok [] false] 0)[0+1]? = some o2 →
        o2 = 0 + pdPageLimit)
    ∧ fetch_all_pd_teams [PdResp.rate (some 3),
        PdResp.ok [(⟨("T1").toList, ("Platform").toList⟩ : TeamObj)]
          false] =
      fetch_all_pd_teams ([PdResp.rate (some 3),
        PdResp.ok [(⟨("T1").toList, ("Platform").toList⟩ : TeamObj)]
          false].filter respIsOk) :=
  ⟨claim_C3.2.1 TeamObj _ 0 0 (some 3) (by decide) 0 (by decide),
   claim_C3.2.2.1 TeamObj _ 0 0
     [(⟨("T1").toList, ("Platform").toList⟩ : TeamObj)] (by decide) 0
     (by decide),
   claim_C3.2.2.2.1 _⟩

end PdR
